import Mathlib

/-!
Verification of the ncast safe-casting library (src/include/ncast/ncast.h)
against its natural-language specification.

Shallow embedding conventions (reference platform: x86-64 Linux, LP64,
IEEE-754, `long double` = x87 80-bit extended with a 64-bit significand):

* An integer type is a bit width plus a signedness flag; its value set is the
  integer interval [minVal, maxVal].
* A floating type is a significand precision `prec` (bits) and an exponent
  bound `emax` (the overflow threshold is 2^emax).  A floating value is NaN,
  a signed infinity, or a finite value modeled as the exact rational it
  denotes.
* `static_cast` between integer types is modeled as wrap-around modulo
  2^bits (two's-complement reduction, the behavior of the reference
  platform).  `static_cast` from an integer to a floating type is modeled by
  round-to-nearest-even onto the target's significand grid (`rne_nat`); for
  every use in this file the argument is exactly representable, and the
  out-of-range/NaN cases of float→int casts (undefined behavior in C++) are
  modeled by the platform's "indefinite" result and are never relied upon.
* Finite float→float rounding is accepted silently by the library (only
  range is validated, per the spec), and no claim depends on the rounded
  result, so an in-range finite value is modeled as converted exactly.
* Exceptions are modeled by `Except CastErr`, where `CastErr` has one
  constructor per distinct message produced by the header.
-/

namespace Ncast

/-- Distinct failure messages of ncast.h, one constructor per message text:
`negToUnsigned` = "Attempt to cast negative value (…) to unsigned type",
`exceedsMax` = "Value (…) exceeds maximum for target type (…)",
`belowMin` = "Value (…) is below minimum for target type (…)",
`nanToNonFloat` = "Cannot convert NaN to non-floating-point type",
`infToNonFloat` = "Cannot convert infinity to non-floating-point type",
`outOfRangeGeneric` = "Cast validation failed: value is out of range for
target type" (the single message of the C++14 `numeric_cast_enhanced` path). -/
inductive CastErr where
  | negToUnsigned
  | exceedsMax
  | belowMin
  | nanToNonFloat
  | infToNonFloat
  | outOfRangeGeneric
  deriving DecidableEq, Repr

/-- A C++ integer type: bit width and signedness (two's complement). -/
structure IntTy where
  bits : Nat
  signed : Bool
  deriving DecidableEq, Repr

/-- `std::numeric_limits<T>::lowest()` (= `min()` for integer types). -/
def IntTy.minVal (t : IntTy) : Int :=
  if t.signed then -(2 ^ (t.bits - 1)) else 0

/-- `std::numeric_limits<T>::max()`. -/
def IntTy.maxVal (t : IntTy) : Int :=
  if t.signed then 2 ^ (t.bits - 1) - 1 else 2 ^ t.bits - 1

/-- `static_cast` to an integer type: two's-complement wrap-around into
[minVal, maxVal] (the reference platform's behavior). -/
def IntTy.wrap (t : IntTy) (v : Int) : Int :=
  t.minVal + (v - t.minVal) % (2 ^ t.bits)

def schar : IntTy := ⟨8, true⟩
def uchar : IntTy := ⟨8, false⟩
def int16 : IntTy := ⟨16, true⟩
def uint16 : IntTy := ⟨16, false⟩
def int32 : IntTy := ⟨32, true⟩
def uint32 : IntTy := ⟨32, false⟩
def int64 : IntTy := ⟨64, true⟩
def uint64 : IntTy := ⟨64, false⟩

/-- The integer types of the C++ implementation on the reference platform
(`char` and `signed char` share the descriptor `schar`; `long` and
`long long` share `int64`, similarly unsigned). -/
def cppIntTys : List IntTy :=
  [schar, uchar, int16, uint16, int32, uint32, int64, uint64]

/-- The char-category allowlist of `detail::is_char_type`:
char, signed char (both `schar` here) and unsigned char. -/
def charTys : List IntTy := [schar, uchar]

/-- A C++ floating type: significand precision in bits and exponent bound
(2^emax is the overflow threshold; max finite value is (2^prec − 1)·2^(emax−prec)). -/
structure FloatTy where
  prec : Nat
  emax : Nat
  deriving DecidableEq, Repr

def float : FloatTy := ⟨24, 128⟩
def double : FloatTy := ⟨53, 1024⟩
/-- x87 80-bit extended, the reference platform's `long double` =
`detail::widening_float_type`. -/
def longDouble : FloatTy := ⟨64, 16384⟩

/-- `std::numeric_limits<T>::max()` for a floating type. -/
def FloatTy.maxFinite (t : FloatTy) : ℚ :=
  ((2 : ℚ) ^ t.prec - 1) * 2 ^ (t.emax - t.prec)

/-- `std::numeric_limits<T>::lowest()` for a floating type. -/
def FloatTy.lowestFinite (t : FloatTy) : ℚ := -t.maxFinite

/-- Significand precision of `detail::widening_float_type` (`long double`,
64 bits on the reference platform).  Every integer of magnitude ≤ 2^64 is
exactly representable at this precision. -/
def widening_prec : Nat := 64

/-- Round-to-nearest-even of a natural number onto the binary floating grid
with `prec` significant bits.  Exponent overflow is not modeled: every use in
this development stays far below the overflow threshold of the modeled
types. -/
def rne_nat (prec n : Nat) : Nat :=
  if n ≤ 2 ^ prec then n
  else
    let e := Nat.log2 n
    let step := 2 ^ (e + 1 - prec)
    let q := n / step
    let r := n % step
    if 2 * r < step then q * step
    else if step < 2 * r then (q + 1) * step
    else (if q % 2 = 0 then q else q + 1) * step

/-- `static_cast` from an integer value to a floating type of precision
`prec`: round-to-nearest-even, applied sign-magnitude (IEEE rounding is
symmetric around zero). -/
def floatOfIntQ (prec : Nat) (z : Int) : ℚ :=
  if 0 ≤ z then (rne_nat prec z.natAbs : ℚ) else -(rne_nat prec z.natAbs : ℚ)

/-- A floating-point value: NaN, infinity (the flag is the sign, `true` for
negative), or a finite value given as the exact rational it denotes. -/
inductive FloatVal where
  | nan : FloatVal
  | inf : Bool → FloatVal
  | fin : ℚ → FloatVal
  deriving DecidableEq, Repr

/-- IEEE `<=` on floating values: false on NaN operands. -/
def fvLe : FloatVal → FloatVal → Bool
  | .fin x, .fin y => decide (x ≤ y)
  | .fin _, .inf s => !s
  | .inf s, .fin _ => s
  | .inf s, .inf t => s || !t
  | _, _ => false

/-- IEEE `<` on floating values: false on NaN operands. -/
def fvLt : FloatVal → FloatVal → Bool
  | .fin x, .fin y => decide (x < y)
  | .fin _, .inf s => !s
  | .inf s, .fin _ => s
  | .inf s, .inf t => s && !t
  | _, _ => false

/-- IEEE `==` on floating values: false on NaN operands. -/
def fvEq : FloatVal → FloatVal → Bool
  | .fin x, .fin y => decide (x = y)
  | .inf s, .inf t => s == t
  | _, _ => false

/-- `std::isnan`. -/
def isnan : FloatVal → Bool
  | .nan => true
  | _ => false

/-- `std::isinf`. -/
def isinf : FloatVal → Bool
  | .inf _ => true
  | _ => false

/-- `static_cast<S>(std::numeric_limits<T>::max())` for floating S, T:
exact when T's range fits in S (in the modeled universe `emax T ≤ emax S`
implies `prec T ≤ prec S`, so the value is exactly representable), and
rounds to +infinity when T's max overflows S. -/
def fcast_of_max (S T : FloatTy) : FloatVal :=
  if T.emax ≤ S.emax then .fin T.maxFinite else .inf false

/-- `static_cast<S>(std::numeric_limits<T>::lowest())` for floating S, T. -/
def fcast_of_lowest (S T : FloatTy) : FloatVal :=
  if T.emax ≤ S.emax then .fin T.lowestFinite else .inf true

/-- `static_cast<S>(std::numeric_limits<T>::max())` for floating S and
integer T: round-to-nearest-even of 2^k − 1 at precision `S.prec`. -/
def icast_max_q (S : FloatTy) (T : IntTy) : ℚ := floatOfIntQ S.prec T.maxVal

/-- `static_cast<S>(std::numeric_limits<T>::lowest())` for floating S and
integer T (0 or −2^(bits−1), both exactly representable; `floatOfIntQ` is
exact on them). -/
def icast_min_q (S : FloatTy) (T : IntTy) : ℚ := floatOfIntQ S.prec T.minVal

/-- Truncation toward zero, the semantics of `static_cast<Int>(floatingValue)`
for in-range values. -/
def truncQ (q : ℚ) : Int := if 0 ≤ q then ⌊q⌋ else ⌈q⌉

/-- `static_cast` from a floating value to an integer type.  Defined behavior
(truncation toward zero) when the truncated value is representable; NaN,
infinity and out-of-range finite values are undefined behavior in C++ and are
modeled by the reference platform's "indefinite" result `T.minVal`.  No
theorem in this file depends on the undefined cases. -/
def static_cast_fi (T : IntTy) : FloatVal → Int
  | .fin q => if T.minVal ≤ truncQ q ∧ truncQ q ≤ T.maxVal then truncQ q else T.minVal
  | _ => T.minVal

/-- `static_cast` between floating types: NaN and infinities convert to the
target's NaN/infinities; finite values overflow to ±infinity beyond the
target's finite range and are otherwise modeled as converted exactly (the
library accepts precision loss silently and no claim depends on it). -/
def static_cast_ff (T : FloatTy) : FloatVal → FloatVal
  | .nan => .nan
  | .inf s => .inf s
  | .fin q =>
    if T.maxFinite < q then .inf false
    else if q < T.lowestFinite then .inf true
    else .fin q

/-- `static_cast` from an integer value to a floating type (no overflow is
possible from the ≤64-bit integer types into the modeled floating types). -/
def static_cast_if (T : FloatTy) (v : Int) : FloatVal := .fin (floatOfIntQ T.prec v)

/-- `numeric_cast_validator<To, From, true, true>::validate` (ncast.h
lines 299–324): floating → floating.  NaN and infinities pass through; then
the value, in the source type's arithmetic, is compared against the casted
target extrema. -/
def validate_ff (S T : FloatTy) (v : FloatVal) : Except CastErr FloatVal :=
  if isnan v || isinf v then .ok (static_cast_ff T v)
  else if fvLt (fcast_of_max S T) v then .error .exceedsMax
  else if fvLt v (fcast_of_lowest S T) then .error .belowMin
  else .ok (static_cast_ff T v)

/-- `numeric_cast_validator<To, From, true, false>::validate` (ncast.h
lines 327–360): floating → integral.  NaN and infinity are rejected with
their dedicated messages, then the finite value is compared against the
target bounds casted into the source type, and finally truncated. -/
def validate_fi (S : FloatTy) (T : IntTy) : FloatVal → Except CastErr Int
  | .nan => .error .nanToNonFloat
  | .inf _ => .error .infToNonFloat
  | .fin q =>
    if icast_max_q S T < q then .error .exceedsMax
    else if q < icast_min_q S T then .error .belowMin
    else .ok (truncQ q)

/-- `numeric_cast_validator<To, From, false, true>::validate` (ncast.h
lines 362–387): integral → floating.  The value is widened to
`widening_float_type` (exactly, for all ≤64-bit integers) and compared
against the target's extrema (exactly representable in `long double`). -/
def validate_if (T : FloatTy) (v : Int) : Except CastErr FloatVal :=
  if T.maxFinite < floatOfIntQ widening_prec v then .error .exceedsMax
  else if floatOfIntQ widening_prec v < T.lowestFinite then .error .belowMin
  else .ok (static_cast_if T v)

/-- `numeric_cast_validator<To, From, false, false>::validate` (ncast.h
lines 389–425): integral → integral.  Negative-to-unsigned is rejected first
with its dedicated message, then value and target bounds are converted to
`widening_float_type` (not to the declared `widening_int_type`!) and
compared. -/
def validate_ii (S T : IntTy) (v : Int) : Except CastErr Int :=
  if S.signed = true ∧ T.signed = false ∧ v < 0 then .error .negToUnsigned
  else if floatOfIntQ widening_prec T.maxVal < floatOfIntQ widening_prec v then
    .error .exceedsMax
  else if floatOfIntQ widening_prec v < floatOfIntQ widening_prec T.minVal then
    .error .belowMin
  else .ok (T.wrap v)

/-- A source or target type of `numeric_cast`: floating or integral. -/
inductive Ty where
  | f : FloatTy → Ty
  | i : IntTy → Ty
  deriving DecidableEq, Repr

/-- An arithmetic value: floating or integral. -/
inductive Val where
  | fv : FloatVal → Val
  | iv : Int → Val
  deriving DecidableEq, Repr

/-- `v` is a well-typed value for the type `t` (floating values for floating
types, integers for integer types). -/
def HasTy : Ty → Val → Prop
  | .f _, .fv _ => True
  | .i _, .iv _ => True
  | _, _ => False

/-- `std::is_unsigned<To>::value` (false for floating types). -/
def Ty.unsignedB : Ty → Bool
  | .i T => !T.signed
  | .f _ => false

/-- `static_cast<widening_float_type>(std::numeric_limits<To>::max())`,
exact for every modeled target type. -/
def Ty.wideMaxQ : Ty → ℚ
  | .i T => floatOfIntQ widening_prec T.maxVal
  | .f T => T.maxFinite

/-- `static_cast<widening_float_type>(std::numeric_limits<To>::lowest())`,
exact for every modeled target type. -/
def Ty.wideMinQ : Ty → ℚ
  | .i T => floatOfIntQ widening_prec T.minVal
  | .f T => T.lowestFinite

/-- `static_cast<To>(value)` on the unified value domain. -/
def static_cast (To : Ty) : Val → Val
  | .fv x =>
    match To with
    | .f T => .fv (static_cast_ff T x)
    | .i T => .iv (static_cast_fi T x)
  | .iv z =>
    match To with
    | .f T => .fv (static_cast_if T z)
    | .i T => .iv (T.wrap z)

/-- `detail::constexpr_validation::is_in_range<To, From>(value)` (ncast.h
lines 189–202), the single boolean expression of the C++14 path.  For a
floating source it compares with the IEEE operators (false on NaN), and for
integral targets additionally requires `value == (From)((To)value)`, i.e.
no fractional part.  For an integral source it applies the
negative-to-unsigned test and then compares in `widening_float_type`. -/
def is_in_range (To From : Ty) (v : Val) : Bool :=
  match From, v with
  | .f S, .fv x =>
    match To with
    | .f T => fvLe x (fcast_of_max S T) && fvLe (fcast_of_lowest S T) x
    | .i T =>
      fvLe x (.fin (icast_max_q S T)) && fvLe (.fin (icast_min_q S T)) x &&
        fvEq x (.fin (floatOfIntQ S.prec (static_cast_fi T x)))
  | .i S, .iv z =>
    if S.signed = true ∧ To.unsignedB = true ∧ z < 0 then false
    else
      decide (floatOfIntQ widening_prec z ≤ To.wideMaxQ) &&
        decide (To.wideMinQ ≤ floatOfIntQ widening_prec z)
  | _, _ => false

/-- `detail::numeric_cast_impl<To, From>` (ncast.h lines 430–444) with the
validation configuration made explicit: with validation off
(`NCAST_DISABLE_RUNTIME_VALIDATION` defined) it is a raw `static_cast`;
otherwise it dispatches to the `numeric_cast_validator` specialization
selected by the two type categories.  The unreachable branch covers values
that are ill-typed for the source type. -/
def numeric_cast_impl (validation : Bool) (To From : Ty) (v : Val) :
    Except CastErr Val :=
  if validation then
    match From, To, v with
    | .f S, .f T, .fv x => (validate_ff S T x).map Val.fv
    | .f S, .i T, .fv x => (validate_fi S T x).map Val.iv
    | .i _, .f T, .iv z => (validate_if T z).map Val.fv
    | .i S, .i T, .iv z => (validate_ii S T z).map Val.iv
    | _, _, _ => .ok (static_cast To v)
  else .ok (static_cast To v)

/-- `detail::numeric_cast_enhanced<To, From>` of the C++14+ build (ncast.h
lines 229–238): `is_in_range ? cast : (validation ? throw generic : cast)`.
This single expression is evaluated both at compile time for constants and
at run time for run-time arguments. -/
def numeric_cast_enhanced (validation : Bool) (To From : Ty) (v : Val) :
    Except CastErr Val :=
  if is_in_range To From v then .ok (static_cast To v)
  else if validation then .error .outOfRangeGeneric
  else .ok (static_cast To v)

/-- The public `numeric_cast<To>(value)` (ncast.h lines 480–487) in the
default C++14+ build with validation enabled: it forwards to
`numeric_cast_enhanced` (call-site arguments "unknown", 0, "unknown"). -/
def numeric_cast (To From : Ty) (v : Val) : Except CastErr Val :=
  numeric_cast_enhanced true To From v

/-- The public `numeric_cast<To>(value)` in a C++11 build (or with
`NCAST_DISABLE_COMPILE_TIME_VALIDATION`): the fallback forwards to
`numeric_cast_impl`, i.e. to the runtime validators. -/
def numeric_cast_cpp11 (To From : Ty) (v : Val) : Except CastErr Val :=
  numeric_cast_impl true To From v

/-- `detail::char_cast_impl<To, From>` (ncast.h lines 449–460): between char
types, an unchecked `static_cast` — it cannot fail (the char-type allowlist
is enforced at compile time; here it appears as list-membership hypotheses in
the theorems). -/
def char_cast_impl (T : IntTy) (v : Int) : Int := T.wrap v

/-- The public `char_cast<To>(value)` (ncast.h lines 505–512). -/
def char_cast (T : IntTy) (v : Int) : Int := char_cast_impl T v

/-- The location suffix of `cast_exception::format_message`. -/
def location_section (file : String) (line : Int) (fct : String) : String :=
  " (File: " ++ file ++ ", Line: " ++ toString line ++
    (if fct ≠ "" then ", Function: " ++ fct else "") ++ ")"

/-- `cast_exception::format_message` (ncast.h lines 115–127): the base
message always; the location section appended only when the file string is
non-empty and the line is positive (the function name appears inside it only
when non-empty, see `location_section`). -/
def format_message (msg file : String) (line : Int) (fct : String) : String :=
  "Cast error: " ++ msg ++
    (if file ≠ "" ∧ 0 < line then location_section file line fct else "")

/-- The exception object `ncast::cast_exception`. -/
structure cast_exception where
  message_ : String
  file_ : String
  line_ : Int
  function_ : String

/-- The `formatted_message_` field computed by both constructors. -/
def cast_exception.formatted_message (e : cast_exception) : String :=
  format_message e.message_ e.file_ e.line_ e.function_

def cast_exception.getFile (e : cast_exception) : String := e.file_
def cast_exception.getLine (e : cast_exception) : Int := e.line_
def cast_exception.getFunction (e : cast_exception) : String := e.function_

/-- `cast_exception::what()`. -/
def cast_exception.what (e : cast_exception) : String := e.formatted_message

/-- The exception constructed when a failure is raised through the plain
`numeric_cast` entry point, which passes `numeric_cast_enhanced`'s default
call-site arguments: file "unknown", line 0, function "unknown". -/
def plain_entry_exception (msg : String) : cast_exception :=
  ⟨msg, "unknown", 0, "unknown"⟩

/-- Modelled from the spec and claim wording for C9 only (for comparison
with the code): the same-category integer bounds check "performed in a
maximal-width integer intermediate representation", i.e. value and target
bounds converted to the declared `detail::widening_int_type` (`long long`,
= `int64`; the conversion wraps) and compared there.  The code does not do
this: `widening_int_type` is declared but unused, and `validate_ii` compares
in `widening_float_type`. -/
def is_in_range_ii_intWidened (T : IntTy) (v : Int) : Bool :=
  decide (int64.wrap v ≤ int64.wrap T.maxVal) &&
    decide (int64.wrap T.minVal ≤ int64.wrap v)

deriving instance DecidableEq for Except

/-- The double value written `42.7` in the tests (modeled by the exact
rational 427/10; the value of the C++ literal differs from 427/10 by less
than one ulp and has the same truncation and range behavior). -/
def q427 : ℚ := ⟨427, 10, by decide, by decide⟩

/-- The double value written `-42.7` in the tests. -/
def qm427 : ℚ := ⟨-427, 10, by decide, by decide⟩

/-- Helper facts about the embedding, shared by the claim theorems. -/
theorem IntTy.minVal_le_maxVal (T : IntTy) (h0 : 0 < T.bits) :
    T.minVal ≤ T.maxVal := by
  rcases T with ⟨b, s⟩
  have h1 : (0:Int) < 2 ^ (b - 1) := pow_pos (by norm_num) _
  have h2 : (0:Int) < 2 ^ b := pow_pos (by norm_num) _
  simp only [IntTy.minVal, IntTy.maxVal]
  cases s <;> simp <;> omega

/-- Every modeled integer type's bounds lie within ±2^64. -/
theorem IntTy.bounds_le (T : IntTy) (h0 : 0 < T.bits) (h64 : T.bits ≤ 64) :
    -(18446744073709551616 : Int) ≤ T.minVal ∧
      T.maxVal ≤ 18446744073709551616 := by
  rcases T with ⟨b, s⟩
  have hN : (2:Nat) ^ (b - 1) ≤ 2 ^ 63 :=
    Nat.pow_le_pow_right (by norm_num) (by simp at h64; omega)
  have hM : (2:Nat) ^ b ≤ 2 ^ 64 :=
    Nat.pow_le_pow_right (by norm_num) (by simp at h64; omega)
  have hN2 : (2:Int) ^ (b - 1) ≤ 9223372036854775808 := by
    calc (2:Int) ^ (b - 1) ≤ 2 ^ 63 := by exact_mod_cast hN
    _ = 9223372036854775808 := by norm_num
  have hM2 : (2:Int) ^ b ≤ 18446744073709551616 := by
    calc (2:Int) ^ b ≤ 2 ^ 64 := by exact_mod_cast hM
    _ = 18446744073709551616 := by norm_num
  simp only [IntTy.minVal, IntTy.maxVal]
  cases s
  · constructor
    · simp
    · simp
      omega
  · constructor
    · simp
      omega
    · simp
      omega

/-- `static_cast` to an integer type is the identity on in-range values. -/
theorem IntTy.wrap_eq_self (T : IntTy) (h0 : 0 < T.bits) (v : Int)
    (h1 : T.minVal ≤ v) (h2 : v ≤ T.maxVal) : T.wrap v = v := by
  rcases T with ⟨b, s⟩
  have hb0 : 0 < b := by simpa using h0
  have hsplit : (2:Int) ^ b = 2 ^ (b - 1) * 2 := by
    rw [← pow_succ]
    congr 1
    omega
  simp only [IntTy.minVal, IntTy.maxVal] at h1 h2
  simp only [IntTy.wrap, IntTy.minVal]
  cases s
  · simp only [Bool.false_eq_true, if_false] at h1 h2 ⊢
    have hlt : v < 2 ^ b := by omega
    rw [sub_zero, Int.emod_eq_of_lt h1 hlt]
    ring
  · simp only [if_true] at h1 h2 ⊢
    have hnn : (0:Int) ≤ v - -(2 ^ (b - 1)) := by omega
    have hlt : v - -(2 ^ (b - 1)) < 2 ^ b := by omega
    rw [Int.emod_eq_of_lt hnn hlt]
    ring

/-- Round-to-nearest-even is exact below the precision threshold. -/
theorem rne_nat_exact (prec n : Nat) (h : n ≤ 2 ^ prec) : rne_nat prec n = n := by
  unfold rne_nat
  rw [if_pos h]

/-- The integer-to-float cast model is exact for magnitudes up to 2^prec. -/
theorem floatOfIntQ_exact (prec : Nat) (z : Int) (h : z.natAbs ≤ 2 ^ prec) :
    floatOfIntQ prec z = (z : ℚ) := by
  unfold floatOfIntQ
  rw [rne_nat_exact prec z.natAbs h]
  by_cases hz : 0 ≤ z
  · rw [if_pos hz, Int.cast_natAbs, Int.cast_abs]
    exact abs_of_nonneg (by exact_mod_cast hz)
  · rw [if_neg hz, Int.cast_natAbs, Int.cast_abs]
    have ha : |(z:ℚ)| = -(z:ℚ) := abs_of_neg (by exact_mod_cast not_le.mp hz)
    rw [ha]
    ring

/-- The widening to `long double` (64 significand bits) is exact for every
integer of magnitude at most 2^64. -/
theorem ld_exact (z : Int) (h1 : -(18446744073709551616 : Int) ≤ z)
    (h2 : z ≤ 18446744073709551616) :
    floatOfIntQ widening_prec z = (z : ℚ) := by
  apply floatOfIntQ_exact
  have : (2:Nat) ^ widening_prec = 18446744073709551616 := by
    norm_num [widening_prec]
  rw [this]
  omega

/-- Claim C1 (code bug): between floating types, the runtime validator
(`numeric_cast_validator<…, true, true>`, reached by `numeric_cast` in a
C++11 build) converts NaN and both infinities unchanged, exactly as the claim
and the repository's tests (test_ncast_float.cpp, NaNConversions and
InfinityConversions) state.  But in the default C++14+ build the public
`numeric_cast` evaluates `is_in_range`, whose ordered comparisons are false
for NaN (in any direction) and for an infinity narrowed to a smaller floating
type, so those casts raise the generic out-of-range error instead of
succeeding. -/
theorem C1_float_float_specials :
    validate_ff float double .nan = .ok .nan ∧
    validate_ff double float .nan = .ok .nan ∧
    validate_ff double float (.inf false) = .ok (.inf false) ∧
    validate_ff double float (.inf true) = .ok (.inf true) ∧
    numeric_cast_cpp11 (.f double) (.f float) (.fv .nan) = .ok (.fv .nan) ∧
    numeric_cast_cpp11 (.f float) (.f double) (.fv (.inf false)) =
      .ok (.fv (.inf false)) ∧
    numeric_cast (.f double) (.f float) (.fv .nan) = .error .outOfRangeGeneric ∧
    numeric_cast (.f float) (.f double) (.fv (.inf false)) =
      .error .outOfRangeGeneric ∧
    numeric_cast (.f float) (.f double) (.fv (.inf true)) =
      .error .outOfRangeGeneric := by
  decide

/-- Claim C2 (code bug): for a floating source and integer target, NaN and
both infinities always fail — in the runtime validator with the dedicated
NaN/infinity messages, as the claim states; but in the default C++14+ build
the public `numeric_cast` raises the generic out-of-range error instead of
the NaN- or infinity-specific one.  No configuration silently truncates. -/
theorem C2_float_int_specials :
    validate_fi double int32 .nan = .error .nanToNonFloat ∧
    validate_fi float int32 .nan = .error .nanToNonFloat ∧
    validate_fi double int32 (.inf false) = .error .infToNonFloat ∧
    validate_fi double int32 (.inf true) = .error .infToNonFloat ∧
    numeric_cast_cpp11 (.i int32) (.f double) (.fv .nan) =
      .error .nanToNonFloat ∧
    numeric_cast_cpp11 (.i int64) (.f double) (.fv (.inf true)) =
      .error .infToNonFloat ∧
    numeric_cast (.i int32) (.f double) (.fv .nan) = .error .outOfRangeGeneric ∧
    numeric_cast (.i int32) (.f double) (.fv (.inf false)) =
      .error .outOfRangeGeneric := by
  decide

/-- Claim C3 (code bug): an in-range fractional value (42.7, modeled by the
rational 427/10) converts to an integer by truncation toward zero in the
runtime validator — `numeric_cast<int>(42.7)` yields 42 and
`numeric_cast<int>(-42.7)` yields −42, as the claim and the tests state; but
in the default C++14+ build `is_in_range` additionally requires
`value == (From)((To)value)`, which is false for every fractional value, so
the public `numeric_cast` raises the generic error instead of truncating. -/
theorem C3_fractional_truncation :
    q427 = 427 / 10 ∧ qm427 = -427 / 10 ∧
    validate_fi double int32 (.fin q427) = .ok 42 ∧
    validate_fi double int32 (.fin qm427) = .ok (-42) ∧
    numeric_cast_cpp11 (.i int32) (.f double) (.fv (.fin q427)) = .ok (.iv 42) ∧
    numeric_cast (.i int32) (.f double) (.fv (.fin q427)) =
      .error .outOfRangeGeneric := by
  refine ⟨?_, ?_, by decide, by decide, by decide, by decide⟩
  · rw [← Rat.num_div_den q427]
    norm_num [show q427.num = 427 from rfl, show q427.den = 10 from rfl]
  · rw [← Rat.num_div_den qm427]
    norm_num [show qm427.num = -427 from rfl, show qm427.den = 10 from rfl]

/-- Claim C4 (code bug): casting a negative signed value to an unsigned type
fails in every validated configuration, but only the runtime validator
(C++11 path) reports the dedicated negative-to-unsigned message; the default
C++14+ build's `numeric_cast` reports exactly the generic out-of-range
message that the claim says is not used. -/
theorem C4_negative_to_unsigned :
    validate_ii int32 uint32 (-1) = .error .negToUnsigned ∧
    numeric_cast_cpp11 (.i uint32) (.i int32) (.iv (-1)) =
      .error .negToUnsigned ∧
    numeric_cast_cpp11 (.i uint64) (.i int32) (.iv (-123)) =
      .error .negToUnsigned ∧
    numeric_cast (.i uint32) (.i int32) (.iv (-1)) =
      .error .outOfRangeGeneric := by
  decide

/-- Claim C8: with runtime validation compiled out
(`NCAST_DISABLE_RUNTIME_VALIDATION`), both implementation paths of
`numeric_cast` produce no error on any input — including NaN, infinities and
out-of-range values — and return exactly the raw `static_cast` of the value
(wrap-around/truncation included), with unchanged signatures. -/
theorem C8_validation_disabled (To From : Ty) (v : Val) :
    numeric_cast_impl false To From v = .ok (static_cast To v) ∧
    numeric_cast_enhanced false To From v = .ok (static_cast To v) := by
  constructor
  · rfl
  · unfold numeric_cast_enhanced
    cases h : is_in_range To From v <;> simp [h]

/-- Claim C9 counterexample: the claim says the integer→integer range check
is performed in a maximal-width *integer* representation whose range contains
both the source and the target ranges.  At source `unsigned long long`,
value 2^64 − 1, target `long long`: a check performed in the declared
`widening_int_type` (`long long`) would wrap the value to −1 and accept the
cast, while the code's actual check (in `widening_float_type`) rejects it
with exceeds-maximum — which is the mathematically correct outcome, since
2^64 − 1 exceeds the target's maximum.  Moreover no integer type of the
implementation has a range containing both `unsigned long long`'s and
`long long`'s ranges, so the claimed intermediate cannot exist. -/
theorem C9_intWidening_counterexample :
    validate_ii uint64 int64 (2 ^ 64 - 1) = .error .exceedsMax ∧
    is_in_range_ii_intWidened int64 (2 ^ 64 - 1) = true ∧
    uint64.maxVal = 2 ^ 64 - 1 ∧ int64.maxVal < (2 ^ 64 - 1 : Int) ∧
    (∀ W ∈ cppIntTys, ¬(W.minVal ≤ int64.minVal ∧ uint64.maxVal ≤ W.maxVal)) := by
  decide

/-- Claim C5: for all (≤64-bit) integer types S, T and every value
representable in S, the runtime-validated cast succeeds with the
mathematically exact value iff the value lies within the target's bounds
(inclusive); otherwise it fails with the exceeds-maximum error or with one of
the two below-minimum errors (the dedicated negative-to-unsigned one exactly
in the signed-source/unsigned-target/negative case, which the spec classifies
as the specific below-minimum case). -/
theorem C5_int_int_range (S T : IntTy) (hS0 : 0 < S.bits) (hS64 : S.bits ≤ 64)
    (hT0 : 0 < T.bits) (hT64 : T.bits ≤ 64) (v : Int)
    (hlo : S.minVal ≤ v) (hhi : v ≤ S.maxVal) :
    (validate_ii S T v = .ok v ↔ (T.minVal ≤ v ∧ v ≤ T.maxVal)) ∧
    (T.maxVal < v → validate_ii S T v = .error .exceedsMax) ∧
    (v < T.minVal →
      validate_ii S T v = .error .negToUnsigned ∨
        validate_ii S T v = .error .belowMin) := by
  have hbS := S.bounds_le hS0 hS64
  have hbT := T.bounds_le hT0 hT64
  have hmmT := T.minVal_le_maxVal hT0
  have hmmS := S.minVal_le_maxVal hS0
  have hv1 : floatOfIntQ widening_prec v = (v:ℚ) :=
    ld_exact v (by linarith [hbS.1]) (by linarith [hbS.2])
  have hv2 : floatOfIntQ widening_prec T.maxVal = (T.maxVal:ℚ) :=
    ld_exact _ (by linarith [hbT.1]) (by linarith [hbT.2])
  have hv3 : floatOfIntQ widening_prec T.minVal = (T.minVal:ℚ) :=
    ld_exact _ (by linarith [hbT.1]) (by linarith [hbT.2])
  unfold validate_ii
  rw [hv1, hv2, hv3]
  simp only [Int.cast_lt]
  split_ifs with h1 h2 h3
  · have ht0 : T.minVal = 0 := by simp [IntTy.minVal, h1.2.1]
    refine ⟨⟨fun h => absurd h (by simp), fun h => ?_⟩, fun h => ?_, fun _ => Or.inl rfl⟩
    · exfalso
      omega
    · exfalso
      omega
  · refine ⟨⟨fun h => absurd h (by simp), fun h => ?_⟩, fun _ => rfl, fun h => ?_⟩
    · exfalso
      omega
    · exfalso
      omega
  · refine ⟨⟨fun h => absurd h (by simp), fun h => ?_⟩, fun h => ?_, fun _ => Or.inr rfl⟩
    · exfalso
      omega
    · exfalso
      omega
  · rw [T.wrap_eq_self hT0 v (by omega) (by omega)]
    refine ⟨⟨fun _ => ⟨by omega, by omega⟩, fun _ => rfl⟩, fun h => ?_, fun h => ?_⟩
    · exfalso
      omega
    · exfalso
      omega

/-- Claim C5 witness: `numeric_cast<signed char>(300)` from int fails with
exceeds-maximum; instantiation of the range theorem at S = int, T = signed
char, v = 300. -/
theorem C5_int_int_range_witness :
    0 < int32.bits ∧ int32.bits ≤ 64 ∧ 0 < schar.bits ∧ schar.bits ≤ 64 ∧
    int32.minVal ≤ (300:Int) ∧ (300:Int) ≤ int32.maxVal ∧
    ((validate_ii int32 schar 300 = .ok 300 ↔
        (schar.minVal ≤ (300:Int) ∧ (300:Int) ≤ schar.maxVal)) ∧
      (schar.maxVal < (300:Int) →
        validate_ii int32 schar 300 = .error .exceedsMax) ∧
      ((300:Int) < schar.minVal →
        validate_ii int32 schar 300 = .error .negToUnsigned ∨
          validate_ii int32 schar 300 = .error .belowMin)) :=
  ⟨by decide, by decide, by decide, by decide, by decide, by decide,
    C5_int_int_range int32 schar (by decide) (by decide) (by decide) (by decide)
      300 (by decide) (by decide)⟩

/-- An in-range integer→integer cast through the default-build public entry
point succeeds and is the identity (shared helper for the round-trip
claim). -/
theorem enhanced_ii_ok (S T : IntTy) (hT0 : 0 < T.bits) (hT64 : T.bits ≤ 64)
    (v : Int) (h1 : T.minVal ≤ v) (h2 : v ≤ T.maxVal) :
    numeric_cast (.i T) (.i S) (.iv v) = .ok (.iv v) := by
  have hbT := T.bounds_le hT0 hT64
  have hmmT := T.minVal_le_maxVal hT0
  have hv1 : floatOfIntQ widening_prec v = (v:ℚ) :=
    ld_exact v (by linarith [hbT.1]) (by linarith [hbT.2])
  have hv2 : floatOfIntQ widening_prec T.maxVal = (T.maxVal:ℚ) :=
    ld_exact _ (by linarith [hbT.1]) (by linarith [hbT.2])
  have hv3 : floatOfIntQ widening_prec T.minVal = (T.minVal:ℚ) :=
    ld_exact _ (by linarith [hbT.1]) (by linarith [hbT.2])
  have hneg : ¬(S.signed = true ∧ (Ty.i T).unsignedB = true ∧ v < 0) := by
    rintro ⟨_, hu, hv0⟩
    have hTs : T.signed = false := by
      simpa [Ty.unsignedB] using hu
    have ht0 : T.minVal = 0 := by simp [IntTy.minVal, hTs]
    omega
  have hin : is_in_range (.i T) (.i S) (.iv v) = true := by
    show (if S.signed = true ∧ (Ty.i T).unsignedB = true ∧ v < 0 then false
        else
          decide (floatOfIntQ widening_prec v ≤ (Ty.i T).wideMaxQ) &&
            decide ((Ty.i T).wideMinQ ≤ floatOfIntQ widening_prec v)) = true
    rw [if_neg hneg]
    simp only [Ty.wideMaxQ, Ty.wideMinQ, hv1, hv2, hv3]
    simp only [Bool.and_eq_true, decide_eq_true_eq, Int.cast_le]
    exact ⟨h2, h1⟩
  unfold numeric_cast numeric_cast_enhanced
  rw [hin]
  simp [static_cast, T.wrap_eq_self hT0 v h1 h2]

/-- Claim C6: round-trip — for integer types T narrower than S (T's range
contained in S's) and any value within T's range, casting S→T and back T→S
through the public `numeric_cast` succeeds and returns the original value. -/
theorem C6_roundtrip (S T : IntTy) (hS0 : 0 < S.bits) (hS64 : S.bits ≤ 64)
    (hT0 : 0 < T.bits) (hT64 : T.bits ≤ 64)
    (hnarrow1 : S.minVal ≤ T.minVal) (hnarrow2 : T.maxVal ≤ S.maxVal)
    (v : Int) (h1 : T.minVal ≤ v) (h2 : v ≤ T.maxVal) :
    (numeric_cast (.i T) (.i S) (.iv v)).bind (numeric_cast (.i S) (.i T)) =
      .ok (.iv v) := by
  rw [enhanced_ii_ok S T hT0 hT64 v h1 h2]
  show numeric_cast (.i S) (.i T) (.iv v) = .ok (.iv v)
  exact enhanced_ii_ok T S hS0 hS64 v (by omega) (by omega)

/-- Claim C6 witness: int → signed char → int round-trips −5. -/
theorem C6_roundtrip_witness :
    0 < int32.bits ∧ int32.bits ≤ 64 ∧ 0 < schar.bits ∧ schar.bits ≤ 64 ∧
    int32.minVal ≤ schar.minVal ∧ schar.maxVal ≤ int32.maxVal ∧
    schar.minVal ≤ (-5 : Int) ∧ (-5 : Int) ≤ schar.maxVal ∧
    (numeric_cast (.i schar) (.i int32) (.iv (-5))).bind
        (numeric_cast (.i int32) (.i schar)) = .ok (.iv (-5)) :=
  ⟨by decide, by decide, by decide, by decide, by decide, by decide,
    by decide, by decide,
    C6_roundtrip int32 schar (by decide) (by decide) (by decide) (by decide)
      (by decide) (by decide) (-5) (by decide) (by decide)⟩

/-- Claim C7: between the char-category types, `char_cast` never fails (it is
a total function with no error channel) and returns exactly the
bit-reinterpreting narrowing cast: the unique value of the target's range
congruent to the source value modulo 2^8; in particular signed char −1 casts
to unsigned char 255. -/
theorem C7_char_reinterpret (S T : IntTy) (hS : S ∈ charTys) (hT : T ∈ charTys)
    (v : Int) (h1 : S.minVal ≤ v) (h2 : v ≤ S.maxVal) :
    (T.minVal ≤ char_cast T v ∧ char_cast T v ≤ T.maxVal ∧
      char_cast T v % 256 = v % 256) ∧
    char_cast uchar (-1) = 255 := by
  refine ⟨?_, by decide⟩
  have h256 : (2:Int) ^ (8:Nat) = 256 := by norm_num
  fin_cases hS <;> fin_cases hT <;>
    simp_all [char_cast, char_cast_impl, IntTy.wrap, IntTy.minVal, IntTy.maxVal,
      schar, uchar, h256] <;>
    omega

/-- Claim C7 witness: signed char −1 reinterprets to unsigned char 255. -/
theorem C7_char_reinterpret_witness :
    schar ∈ charTys ∧ uchar ∈ charTys ∧
    schar.minVal ≤ (-1 : Int) ∧ (-1 : Int) ≤ schar.maxVal ∧
    ((uchar.minVal ≤ char_cast uchar (-1) ∧ char_cast uchar (-1) ≤ uchar.maxVal ∧
        char_cast uchar (-1) % 256 = (-1 : Int) % 256) ∧
      char_cast uchar (-1) = 255) :=
  ⟨by decide, by decide, by decide, by decide,
    C7_char_reinterpret schar uchar (by decide) (by decide) (-1)
      (by decide) (by decide)⟩

/-- Claim C9 as amended: the integer→integer bounds comparison is performed
in the maximal-precision *floating* type (`widening_float_type` =
`long double`, 64 significand bits), which represents every value and bound
of the ≤64-bit integer types exactly; therefore the comparison neither
overflows nor loses sign or exactness, and away from the dedicated
negative-to-unsigned short-circuit the validator accepts exactly the
in-bounds values.  The declared `widening_int_type` is not used by the
check. -/
theorem C9_widening_is_exact (S T : IntTy) (hS0 : 0 < S.bits)
    (hS64 : S.bits ≤ 64) (hT0 : 0 < T.bits) (hT64 : T.bits ≤ 64) (v : Int)
    (hlo : S.minVal ≤ v) (hhi : v ≤ S.maxVal) :
    (floatOfIntQ widening_prec v ≤ floatOfIntQ widening_prec T.maxVal ↔
      v ≤ T.maxVal) ∧
    (floatOfIntQ widening_prec T.minVal ≤ floatOfIntQ widening_prec v ↔
      T.minVal ≤ v) ∧
    (¬(S.signed = true ∧ T.signed = false ∧ v < 0) →
      (validate_ii S T v = .ok v ↔ (T.minVal ≤ v ∧ v ≤ T.maxVal))) := by
  have hbS := S.bounds_le hS0 hS64
  have hbT := T.bounds_le hT0 hT64
  have hmmT := T.minVal_le_maxVal hT0
  have hmmS := S.minVal_le_maxVal hS0
  have hv1 : floatOfIntQ widening_prec v = (v:ℚ) :=
    ld_exact v (by linarith [hbS.1]) (by linarith [hbS.2])
  have hv2 : floatOfIntQ widening_prec T.maxVal = (T.maxVal:ℚ) :=
    ld_exact _ (by linarith [hbT.1]) (by linarith [hbT.2])
  have hv3 : floatOfIntQ widening_prec T.minVal = (T.minVal:ℚ) :=
    ld_exact _ (by linarith [hbT.1]) (by linarith [hbT.2])
  refine ⟨by rw [hv1, hv2]; exact Int.cast_le, by rw [hv1, hv3]; exact Int.cast_le,
    fun hneg => ?_⟩
  unfold validate_ii
  rw [hv1, hv2, hv3, if_neg hneg]
  simp only [Int.cast_lt]
  split_ifs with h2 h3
  · refine ⟨fun h => absurd h (by simp), fun h => by exfalso; omega⟩
  · refine ⟨fun h => absurd h (by simp), fun h => by exfalso; omega⟩
  · rw [T.wrap_eq_self hT0 v (by omega) (by omega)]
    exact ⟨fun _ => ⟨by omega, by omega⟩, fun _ => rfl⟩

/-- Claim C9 amended-theorem witness: instantiation at S = unsigned long
long, T = long long, v = 2^64 − 1 (the counterexample input: the exact
floating comparison correctly classifies it as exceeding long long's
maximum). -/
theorem C9_widening_is_exact_witness :
    0 < uint64.bits ∧ uint64.bits ≤ 64 ∧ 0 < int64.bits ∧ int64.bits ≤ 64 ∧
    uint64.minVal ≤ (18446744073709551615 : Int) ∧
    (18446744073709551615 : Int) ≤ uint64.maxVal ∧
    ((floatOfIntQ widening_prec 18446744073709551615 ≤
        floatOfIntQ widening_prec int64.maxVal ↔
        (18446744073709551615 : Int) ≤ int64.maxVal) ∧
      (floatOfIntQ widening_prec int64.minVal ≤
        floatOfIntQ widening_prec 18446744073709551615 ↔
        int64.minVal ≤ (18446744073709551615 : Int)) ∧
      (¬(uint64.signed = true ∧ int64.signed = false ∧
          (18446744073709551615 : Int) < 0) →
        (validate_ii uint64 int64 18446744073709551615 =
            .ok 18446744073709551615 ↔
          (int64.minVal ≤ (18446744073709551615 : Int) ∧
            (18446744073709551615 : Int) ≤ int64.maxVal)))) :=
  ⟨by decide, by decide, by decide, by decide, by decide, by decide,
    C9_widening_is_exact uint64 int64 (by decide) (by decide) (by decide)
      (by decide) 18446744073709551615 (by decide) (by decide)⟩

/-- Claim C10: the formatted message of a failure equals the bare
"Cast error: " + message exactly when the supplied file is empty or the line
is not positive (so the location section appears iff file non-empty and line
positive); the plain `numeric_cast` entry point supplies file "unknown" and
line 0, hence its exceptions format without a location section while
`getFile()` still returns "unknown" and `getLine()` returns 0. -/
theorem C10_location_formatting (m f : String) (l : Int) (fct : String) :
    (format_message m f l fct = "Cast error: " ++ m ↔ ¬(f ≠ "" ∧ 0 < l)) ∧
    (plain_entry_exception m).what = "Cast error: " ++ m ∧
    (plain_entry_exception m).getFile = "unknown" ∧
    (plain_entry_exception m).getLine = 0 := by
  have hlen : ∀ s t : String, (s ++ t).length = s.length + t.length :=
    String.length_append
  refine ⟨⟨fun h => fun hc => ?_, fun hc => ?_⟩, ?_, rfl, rfl⟩
  · unfold format_message location_section at h
    rw [if_pos hc] at h
    by_cases hf : fct ≠ ""
    · rw [if_pos hf] at h
      apply_fun String.length at h
      simp only [hlen] at h
      have e1 : ("Cast error: ").length = 12 := rfl
      have e2 : (" (File: ").length = 8 := rfl
      have e3 : (", Line: ").length = 8 := rfl
      have e4 : (", Function: ").length = 12 := rfl
      have e5 : (")").length = 1 := rfl
      omega
    · rw [if_neg hf] at h
      apply_fun String.length at h
      simp only [hlen] at h
      have e1 : ("Cast error: ").length = 12 := rfl
      have e2 : (" (File: ").length = 8 := rfl
      have e3 : (", Line: ").length = 8 := rfl
      have e5 : (")").length = 1 := rfl
      omega
  · unfold format_message
    rw [if_neg hc, String.append_empty]
  · show format_message m "unknown" 0 "unknown" = "Cast error: " ++ m
    unfold format_message
    rw [if_neg (by simp), String.append_empty]

end Ncast
